import Mathlib

/-!
Verification of the blood-pressure feature-extraction pipeline in
`src/data/bp_features.py`.  Waveform samples are modelled as rationals,
pandas missing values (NaN) as `Option.none`, and the IEEE value `inf`
produced by `1/0` as a dedicated constructor of `FloatVal`.
-/

namespace BPFeatures

/-- One step of the plateau scan of `scipy.signal.find_peaks`: starting at
sample `j` whose value is `v`, return the index of the last sample of the
plateau of value `v` that contains `j`.  `fuel` bounds the recursion;
`x.length` is always enough fuel. -/
def runEnd {α : Type} [DecidableEq α] (x : List α) (v : α) : ℕ → ℕ → ℕ
  | 0, j => j
  | fuel + 1, j => if x.get? (j + 1) = some v then runEnd x v fuel (j + 1) else j

/-- Model of `scipy.signal.find_peaks` with no keyword arguments: a (possibly flat)
local maximum is a maximal run of equal values `x[l..r]` with `0 < l`,
`r + 1 < x.length`, `x[l-1] < x[l]` and `x[r+1] < x[r]`; the reported
index is the midpoint `(l + r) / 2`.  Only `<` and `=` on samples are
used, exactly as in the scipy scan. -/
def find_peaks {α : Type} [LT α] [DecidableEq α]
    [DecidableRel ((· < ·) : α → α → Prop)] (x : List α) : List ℕ :=
  (List.range x.length).filterMap fun l =>
    match x.get? (l - 1), x.get? l with
    | some pv, some v =>
      if 0 < l ∧ pv < v then
        let r := runEnd x v x.length l
        match x.get? (r + 1) with
        | some nv => if nv < v then some ((l + r) / 2) else none
        | none => none
      else none
    | _, _ => none

/-- The candidate-pairing loop shared verbatim by `get_sys_bp` and
`get_dias_bp`: consume the candidate list two at a time; from each pair
`(a, b)` keep `b` when `a`'s magnitude is strictly smaller, otherwise `a`;
a final unpaired candidate is dropped. -/
def pair_peaks : List (ℕ × ℚ) → List (ℕ × ℚ)
  | a :: b :: rest => (if a.2 < b.2 then b else a) :: pair_peaks rest
  | [] => []
  | [_] => []

/-- Model of `get_sys_bp`: systolic peaks of a waveform whose first sample carries
index `startIdx`; `find_peaks` positions are mapped back to dataframe
labels and paired with the original magnitudes, then collapsed pairwise. -/
def get_sys_bp (startIdx : ℕ) (vals : List ℚ) : List (ℕ × ℚ) :=
  pair_peaks ((find_peaks vals).map fun p => (startIdx + p, vals.getD p 0))

/-- An IEEE float value arising from an elementwise reciprocal of rational
samples: either a finite rational or `inf` (the result of `1 / 0`). -/
inductive FloatVal : Type where
  | fin : ℚ → FloatVal
  | inf : FloatVal
deriving DecidableEq

/-- IEEE ordering on the values a reciprocal can produce: finite values
compare as rationals and `inf` is above everything. -/
def FloatVal.ltProp : FloatVal → FloatVal → Prop
  | .fin p, .fin q => p < q
  | .fin _, .inf => True
  | .inf, _ => False

instance : LT FloatVal := ⟨FloatVal.ltProp⟩

instance FloatVal.decLT : ∀ a b : FloatVal, Decidable (a < b)
  | .fin p, .fin q => if h : p < q then .isTrue h else .isFalse h
  | .fin _, .inf => .isTrue trivial
  | .inf, .fin _ => .isFalse fun h => h
  | .inf, .inf => .isFalse fun h => h

/-- The elementwise reciprocal `1 / v` as executed on IEEE floats by numpy:
`1 / 0` is `inf`; no exception is ever raised. -/
def recip (v : ℚ) : FloatVal := if v = 0 then .inf else .fin (1 / v)

/-- Model of `get_dias_bp`: identical to `get_sys_bp` except that the peak detector
runs on the elementwise reciprocal of the waveform, while magnitudes are
taken from the original values. -/
def get_dias_bp (startIdx : ℕ) (vals : List ℚ) : List (ℕ × ℚ) :=
  pair_peaks ((find_peaks (vals.map recip)).map fun p => (startIdx + p, vals.getD p 0))

/-- Model of `calc_map`: positions are `(position, magnitude)` pairs.  numpy raises a
shape error whenever the two peak lists have different lengths (elementwise
arithmetic and `np.mean` over the stacked index vectors both require equal
shapes); otherwise `map = (sbp + 2 dbp) / 3` and the output position is the
mean of the two input positions. -/
def calc_map (sys dias : List (ℚ × ℚ)) : Except String (List ℚ × List ℚ) :=
  if sys.length = dias.length then
    .ok ((sys.zip dias).map (fun sd => (sd.1.1 + sd.2.1) / 2),
         (sys.zip dias).map (fun sd => (sd.1.2 + 2 * sd.2.2) / 3))
  else .error "operands could not be broadcast together"

/-- Columns of a summary row that `clean_bp_summary` reads;
`none` models a pandas missing value (NaN). -/
structure CleanRow where
  avg_sys : Option ℚ
  avg_dias : Option ℚ
  hypotensive_in_15 : Option ℕ
deriving DecidableEq

/-- Model of `clean_bp_summary`: appends the `include_in_model` column.  A NaN in
`avg_sys` or `avg_dias` fails the float comparison, exactly as in numpy. -/
def clean_bp_summary (df : List CleanRow) : List (CleanRow × ℕ) :=
  df.map fun r =>
    let good_sys := match r.avg_sys with | some v => decide (30 ≤ v) | none => false
    let good_dias := match r.avg_dias with | some v => decide (10 ≤ v) | none => false
    let has_outcome := r.hypotensive_in_15.isSome
    (r, if good_sys && good_dias && has_outcome then 1 else 0)

/-- Model of `np.mean` over a list of rationals: the mean, or NaN (`none`) for an
empty list. -/
def npMean (l : List ℚ) : Option ℚ :=
  if l.length = 0 then none else some (l.sum / l.length)

/-- The float expression `(avg_sys + 2 * avg_dias) / 3` of `avg_bp`, with
NaN (`none`) propagating from either operand. -/
def np_map (s d : Option ℚ) : Option ℚ :=
  match s, d with
  | some s, some d => some ((s + 2 * d) / 3)
  | _, _ => none

/-- Python `range(start, stop, step)` for a positive step; `step = 0`
(which raises in Python) is mapped to the empty list. -/
def pyRange (start stop step : ℕ) : List ℕ :=
  if step = 0 then [] else List.range' start ((stop - start + step - 1) / step) step

/-- The waveform dataframe passed to `avg_bp`: one `(value, timestamp)` row
per sample, labelled by consecutive integers starting at `firstIdx`; a
`none` timestamp is a label whose `ts` lookup raises `KeyError`. -/
abbrev WaveRows := List (ℚ × Option ℚ)

/-- Model of the lookup `df.loc[label, 'ts']`: the timestamp stored at a dataframe label. -/
def tsAt (firstIdx : ℕ) (rows : WaveRows) (label : ℕ) : Option ℚ :=
  (rows.get? (label - firstIdx)).bind Prod.snd

/-- Model of `x.loc[w - time_chunk : w]` followed by `.to_numpy()`: the inclusive
label slice of the waveform channel for the window ending at `w`. -/
def subValues (firstIdx : ℕ) (rows : WaveRows) (tc w : ℕ) : List ℚ :=
  ((rows.drop (w - tc - firstIdx)).take (tc + 1)).map Prod.fst

/-- One row of the summary table built by `avg_bp`, before the two derived
hypotension columns are appended. -/
structure WRow where
  wave : ℕ
  start_window : ℕ
  end_window : ℕ
  start_window_time : ℚ
  end_window_time : ℚ
  avg_sys : Option ℚ
  avg_dias : Option ℚ
  avg_map : Option ℚ
  all_values : List ℚ
deriving DecidableEq

/-- A summary row after `current_hypotensive` and `hypotensive_in_15` are
appended. -/
structure WRowL extends WRow where
  current_hypotensive : ℕ
  hypotensive_in_15 : Option ℕ
deriving DecidableEq

/-- The body of the window loop of `avg_bp` for the window ending at label
`w` (`tc` is already in samples): compute the peak averages, then attempt
both boundary timestamp lookups; a `KeyError` (missing timestamp) skips the
row via `continue`, modelled as `none`. -/
def mkWindowRow (wave firstIdx : ℕ) (rows : WaveRows) (tc w : ℕ) : Option WRow :=
  let vals := subValues firstIdx rows tc w
  let sys_pressure := get_sys_bp (w - tc) vals
  let dias_pressure := get_dias_bp (w - tc) vals
  let avg_sys := npMean (sys_pressure.map Prod.snd)
  let avg_dias := npMean (dias_pressure.map Prod.snd)
  match tsAt firstIdx rows (w - tc), tsAt firstIdx rows w with
  | some t0, some t1 =>
      some { wave := wave, start_window := w - tc, end_window := w,
             start_window_time := t0, end_window_time := t1,
             avg_sys := avg_sys, avg_dias := avg_dias,
             avg_map := np_map avg_sys avg_dias, all_values := vals }
  | _, _ => none

/-- Model of `np.where(avg_map <= 65, 1, 0)` on one float cell; a NaN comparison is
false, so a missing `avg_map` yields `0`. -/
def cur_hypo (avg_map : Option ℚ) : ℕ :=
  match avg_map with
  | some m => if m ≤ 65 then 1 else 0
  | none => 0

/-- The tail of `avg_bp`: append `current_hypotensive`, then
`hypotensive_in_15 = current_hypotensive.shift(-15)` (row `i` receives the
value of row `i + 15`, and the final 15 rows receive NaN). -/
def label_rows (base : List WRow) : List WRowL :=
  ((List.range base.length).zip base).map fun ir =>
    { toWRow := ir.2,
      current_hypotensive := cur_hypo ir.2.avg_map,
      hypotensive_in_15 := (base.map fun r => cur_hypo r.avg_map).get? (ir.1 + 15) }

/-- Model of `avg_bp(df, time_chunk, time_window)`: durations in seconds are turned
into sample counts by `* 1000 // 8`; window end labels run from
`first_index + time_chunk` to `last_index` exclusive in steps of
`time_window`; rows whose boundary timestamps are missing are skipped; when
no row at all was appended the final column selection raises `KeyError` and
the function returns `None`. -/
def avg_bp (wave firstIdx : ℕ) (rows : WaveRows) (time_chunk time_window : ℕ) :
    Option (List WRowL) :=
  let tw := time_window * 1000 / 8
  let tc := time_chunk * 1000 / 8
  let endIdx := firstIdx + rows.length - 1
  let base := (pyRange (firstIdx + tc) endIdx tw).filterMap (mkWindowRow wave firstIdx rows tc)
  if base.isEmpty then none else some (label_rows base)

/-- The columns of the summary table that `create_lookback` reads: the
window-start timestamp (whole seconds, as the integer `Timedelta.seconds`
of a difference) and the window's `avg_map` (possibly NaN). -/
structure LBRow where
  start_window_time : ℕ
  avg_map : Option ℚ
deriving DecidableEq

/-- Python `int()` on a rational: truncation toward zero. -/
def pyInt (q : ℚ) : ℤ := if 0 ≤ q then ⌊q⌋ else ⌈q⌉

/-- Model of `create_lookback(df, time)`: the window spacing in minutes is read off
the first two rows; a spacing larger than `time` raises `ValueError`; a
zero spacing then raises `ZeroDivisionError` when `n_skips = time / spacing`
is formed; otherwise every positional row `i` receives the `avg_map` of row
`int(i - n_skips)`, or NaN when that truncated index is below the first
index, in a new column `lb_<time>_map`.  Fewer than two rows raise
`IndexError` at the `iloc` reads.  An out-of-range forward `iloc`
(unreachable once the spacing guard has passed, since `n_skips >= 1`)
is modelled as a missing value. -/
def create_lookback (df : List LBRow) (time : ℚ) : Except String (String × List (Option ℚ)) :=
  match df.get? 0, df.get? 1 with
  | some row0, some row1 =>
      let time_diff : ℚ := ((row1.start_window_time - row0.start_window_time : ℕ) : ℚ) / 60
      if time_diff > time then .error "ValueError"
      else if time_diff = 0 then .error "ZeroDivisionError"
      else
        let n_skips := time / time_diff
        .ok ("lb_" ++ toString time ++ "_map",
          (List.range df.length).map fun index : ℕ =>
            let lb_idx := pyInt ((index : ℚ) - n_skips)
            if lb_idx < 0 then none
            else match df.get? lb_idx.toNat with
                 | some r => r.avg_map
                 | none => none)
  | _, _ => .error "IndexError"

/-! ### Concrete data used in witnesses and counterexamples -/

/-- A 127-sample waveform alternating between 1 and 2 (all timestamps
present), giving one 126-sample window full of systolic and diastolic
candidates. -/
def c7rows : WaveRows := (List.range 127).map fun i => (if i % 2 = 1 then (2 : ℚ) else 1, some 0)

/-- The single summary row `avg_bp` produces on `c7rows` with a 1-second
chunk and 60-second step. -/
def c7row : WRowL :=
  ⟨⟨0, 0, 125, 0, 0, some 2, some 1, some (4 / 3), subValues 0 c7rows 125 125⟩, 1, none⟩

/-- A 127-sample constant waveform: no peaks of either kind. -/
def c6rows : WaveRows := List.replicate 127 ((1 : ℚ), some (0 : ℚ))

/-- The single summary row `avg_bp` produces on `c6rows` with a 1-second
chunk and 60-second step. -/
def c6row : WRowL :=
  ⟨⟨0, 0, 125, 0, 0, none, none, none, List.replicate 126 (1 : ℚ)⟩, 0, none⟩

/-- A 127-sample waveform with two local maxima (value 200 at samples 1
and 3) but a single local minimum (value 100 at sample 2), the tail
strictly decreasing: its one window has two systolic candidates yet only
one diastolic candidate. -/
def c10vals : List ℚ := (List.range 127).map fun i =>
  if i = 1 ∨ i = 3 then 200 else if i = 2 then 100 else 150 - (i : ℚ)

/-- The waveform `c10vals` with all timestamps present. -/
def c10rows : WaveRows := c10vals.map fun v => (v, some 0)

/-- The single summary row `avg_bp` produces on `c10rows` with a 1-second
chunk and 60-second step: `avg_sys` is present (200) while `avg_dias` and
`avg_map` are missing. -/
def c10row : WRowL :=
  ⟨⟨0, 0, 125, 0, 0, some 200, none, none, subValues 0 c10rows 125 125⟩, 0, none⟩

/-! ### Helper lemmas -/

theorem pair_peaks_length : ∀ l : List (ℕ × ℚ), (pair_peaks l).length = l.length / 2
  | [] => rfl
  | [_] => by simp [pair_peaks]
  | _ :: _ :: rest => by
      simp only [pair_peaks, List.length_cons, pair_peaks_length rest]
      omega

theorem pair_peaks_get? : ∀ (l : List (ℕ × ℚ)) (k : ℕ) (a b : ℕ × ℚ),
    l.get? (2 * k) = some a → l.get? (2 * k + 1) = some b →
    (pair_peaks l).get? k = some (if a.2 < b.2 then b else a)
  | [], _, _, _, ha, _ => by simp at ha
  | [x], k, _, _, ha, hb => by
      cases k with
      | zero => simp at hb
      | succ k =>
          rw [show 2 * (k + 1) = (2 * k + 1) + 1 by omega] at ha
          simp at ha
  | x :: y :: rest, k, a, b, ha, hb => by
      cases k with
      | zero =>
          simp only [Nat.mul_zero, Nat.zero_add, List.get?] at ha hb
          injection ha with ha; injection hb with hb
          subst ha; subst hb
          rfl
      | succ k =>
          rw [show 2 * (k + 1) = (2 * k) + 1 + 1 by omega] at ha
          rw [show 2 * (k + 1) + 1 = ((2 * k) + 1 + 1) + 1 by omega] at hb
          simp only [List.get?] at ha hb
          have := pair_peaks_get? rest k a b ha hb
          simpa [pair_peaks] using this

theorem pair_peaks_short (l : List (ℕ × ℚ)) (h : l.length < 2) : pair_peaks l = [] := by
  match l, h with
  | [], _ => rfl
  | [_], _ => rfl

/-! ### C1: the pairing rule -/

/-- C1 (counterexample): the claim predicts that on the tied candidate pair
`[(0, 4), (1, 4)]` the pairing keeps the second (later) candidate, i.e.
returns `[(1, 4)]`.  The code keeps the first instead. -/
theorem C1_tie_counterexample : pair_peaks [(0, 4), (1, 4)] ≠ [(1, 4)] := by decide

/-- C1 (amended): the pairing step consumes candidates two at a time in
original order (dropping a final unpaired candidate when the count is odd)
and from each pair `(a, b)` keeps `b` exactly when `a`'s magnitude is
strictly smaller, so ties are broken toward `a`, the EARLIER candidate; in
particular on the tied pair `[4, 4]` the first candidate is kept. -/
theorem C1_pairing (l : List (ℕ × ℚ)) :
    (pair_peaks l).length = l.length / 2 ∧
    (∀ (k : ℕ) (a b : ℕ × ℚ),
      l.get? (2 * k) = some a → l.get? (2 * k + 1) = some b →
      (pair_peaks l).get? k = some (if a.2 < b.2 then b else a)) ∧
    pair_peaks [(0, 4), (1, 4)] = [(0, 4)] :=
  ⟨pair_peaks_length l, fun k a b ha hb => pair_peaks_get? l k a b ha hb, by decide⟩

/-- C1 (witness): the amended rule evaluated on the spec's alternating
example `[5, 3, 5, 3]`: each pair keeps the larger first candidate. -/
theorem C1_pairing_witness :
    (pair_peaks [((0 : ℕ), (5 : ℚ)), (1, 3), (2, 5), (3, 3)]).get? 0 = some (0, 5) := by
  have h := (C1_pairing [((0 : ℕ), (5 : ℚ)), (1, 3), (2, 5), (3, 3)]).2.1 0
    (0, 5) (1, 3) (by decide) (by decide)
  simpa [show ¬((5 : ℚ) < 3) by norm_num] using h

/-! ### C3: division by zero in diastolic extraction -/

/-- C3 (code evaluation at the failing input): on a waveform containing the
value `0` the diastolic extraction does NOT raise: `1 / 0` silently becomes
`inf` inside `find_peaks`, the zero sample is reported as a minimum
candidate (position 3, magnitude 0), and an ordinary peak list is
returned.  No `DomainError` exists anywhere in the code. -/
theorem C3_no_domain_error :
    get_dias_bp 0 [5, 1, 5, 0, 5, 1, 5] = [(1, 1)] ∧
    find_peaks ([(5 : ℚ), 1, 5, 0, 5, 1, 5].map recip) = [1, 3, 5] ∧
    recip 0 = .inf := by
  refine ⟨by decide!, by decide!, by decide!⟩

/-! ### C5: calc_map -/

theorem zip_get? {α β : Type} : ∀ (l₁ : List α) (l₂ : List β) (i : ℕ) (a : α) (b : β),
    l₁.get? i = some a → l₂.get? i = some b → (l₁.zip l₂).get? i = some (a, b)
  | _ :: _, _ :: _, 0, _, _, ha, hb => by
      simp only [List.get?] at ha hb
      injection ha with ha; injection hb with hb
      subst ha; subst hb; rfl
  | x :: l₁, y :: l₂, i + 1, a, b, ha, hb => by
      simp only [List.get?] at ha hb
      simpa [List.zip] using zip_get? l₁ l₂ i a b ha hb
  | [], _, i, _, _, ha, _ => by simp at ha
  | _ :: _, [], i, _, _, _, hb => by simp at hb

/-- C5: on equal-length systolic and diastolic peak sequences, `calc_map`
succeeds with `map = (sbp + 2 dbp) / 3` elementwise and each output
position the arithmetic mean of the two input positions; on sequences of
different lengths the stacked numpy arithmetic raises a shape-mismatch
error. -/
theorem C5_calc_map (sys dias : List (ℚ × ℚ)) :
    (sys.length = dias.length →
      ∃ idx maps, calc_map sys dias = .ok (idx, maps) ∧
        idx.length = sys.length ∧ maps.length = sys.length ∧
        ∀ (i : ℕ) (s d : ℚ × ℚ), sys.get? i = some s → dias.get? i = some d →
          idx.get? i = some ((s.1 + d.1) / 2) ∧
          maps.get? i = some ((s.2 + 2 * d.2) / 3)) ∧
    (sys.length ≠ dias.length → ∃ e, calc_map sys dias = .error e) := by
  constructor
  · intro hlen
    have hok : calc_map sys dias =
        .ok ((sys.zip dias).map (fun sd => (sd.1.1 + sd.2.1) / 2),
             (sys.zip dias).map (fun sd => (sd.1.2 + 2 * sd.2.2) / 3)) := by
      simp [calc_map, hlen]
    refine ⟨_, _, hok, ?_, ?_, ?_⟩
    · simp [List.length_zip, hlen]
    · simp [List.length_zip, hlen]
    · intro i s d hs hd
      have hz := zip_get? sys dias i s d hs hd
      constructor
      · rw [List.get?_map, hz]; rfl
      · rw [List.get?_map, hz]; rfl
  · intro hlen
    exact ⟨"operands could not be broadcast together", by simp [calc_map, hlen]⟩

/-- C5 (witness): the spec's example, sys magnitudes `[120, 120]` at
positions 0 and 10, dias magnitudes `[80, 80]` at positions 5 and 15:
map values are both `280/3` and the first output position is `5/2`. -/
theorem C5_calc_map_witness :
    ∃ idx maps, calc_map [(0, 120), (10, 120)] [(5, 80), (15, 80)] = .ok (idx, maps) ∧
      idx.get? 0 = some (5 / 2) ∧ maps.get? 0 = some (280 / 3) := by
  obtain ⟨idx, maps, hok, _, _, helem⟩ :=
    (C5_calc_map [(0, 120), (10, 120)] [(5, 80), (15, 80)]).1 (by decide)
  obtain ⟨h1, h2⟩ := helem 0 (0, 120) (5, 80) (by decide) (by decide)
  refine ⟨idx, maps, hok, ?_, ?_⟩
  · rw [h1]; norm_num
  · rw [h2]; norm_num

/-! ### C2 and C9: create_lookback -/

theorem pyInt_natCast_sub (i k : ℕ) : pyInt ((i : ℚ) - (k : ℚ)) = (i : ℤ) - (k : ℤ) := by
  have hq : ((i : ℚ) - (k : ℚ)) = (((i : ℤ) - (k : ℤ) : ℤ) : ℚ) := by push_cast; ring
  rw [hq, pyInt]
  split
  · exact Int.floor_intCast _
  · exact Int.ceil_intCast _

/-- The success branch of `create_lookback`, fully described: the new
column's cells as a function of the truncated lookback index. -/
theorem create_lookback_ok (df : List LBRow) (t s : ℚ) (row0 row1 : LBRow)
    (h0 : df.get? 0 = some row0) (h1 : df.get? 1 = some row1)
    (hs : ((row1.start_window_time - row0.start_window_time : ℕ) : ℚ) / 60 = s)
    (hpos : 0 < s) (hts : s ≤ t) :
    create_lookback df t = .ok ("lb_" ++ toString t ++ "_map",
      (List.range df.length).map fun index : ℕ =>
        if pyInt ((index : ℚ) - t / s) < 0 then none
        else match df.get? (pyInt ((index : ℚ) - t / s)).toNat with
             | some r => r.avg_map
             | none => none) := by
  simp only [create_lookback, h0, h1]
  rw [hs, if_neg (not_lt.mpr hts), if_neg hpos.ne']

/-- C2: for a table with at least two rows, spacing `s` minutes read off
the first two timestamps, and `lookback_minutes = t ≥ s`, `create_lookback`
succeeds, the appended column is named `lb_<t>_map`, it has one cell per
row, row `i`'s cell holds `avg_map` of the row at the truncated index
`int(i - t/s)` and is missing when that index precedes the first (0th)
index; in particular when `t/s` is a whole number `k`, row `i` receives
`avg_map` of row `i - k` and rows `i < k` are missing. -/
theorem C2_lookback (df : List LBRow) (t s : ℚ) (row0 row1 : LBRow)
    (h0 : df.get? 0 = some row0) (h1 : df.get? 1 = some row1)
    (hs : ((row1.start_window_time - row0.start_window_time : ℕ) : ℚ) / 60 = s)
    (hpos : 0 < s) (hts : s ≤ t) :
    ∃ lb, create_lookback df t = .ok ("lb_" ++ toString t ++ "_map", lb) ∧
      lb.length = df.length ∧
      (∀ i, i < df.length →
        lb.get? i = some (
          if pyInt ((i : ℚ) - t / s) < 0 then none
          else (df.get? (pyInt ((i : ℚ) - t / s)).toNat).bind (fun r => r.avg_map))) ∧
      (∀ k : ℕ, t / s = (k : ℚ) → ∀ i, i < df.length →
        (k ≤ i → lb.get? i = some ((df.get? (i - k)).bind (fun r => r.avg_map))) ∧
        (i < k → lb.get? i = some none)) := by
  have hok := create_lookback_ok df t s row0 row1 h0 h1 hs hpos hts
  refine ⟨_, hok, by simp, ?_, ?_⟩
  · intro i hi
    rw [List.get?_map, List.get?_range hi]
    simp only [Option.map_some']
    congr 1
    split
    · rfl
    · cases df.get? (pyInt ((i : ℚ) - t / s)).toNat <;> rfl
  · intro k hk i hi
    have hcast := pyInt_natCast_sub i k
    have hget : ((List.range df.length).map fun index : ℕ =>
        if pyInt ((index : ℚ) - t / s) < 0 then none
        else match df.get? (pyInt ((index : ℚ) - t / s)).toNat with
             | some r => r.avg_map
             | none => none).get? i = some
          (if pyInt ((i : ℚ) - t / s) < 0 then none
           else match df.get? (pyInt ((i : ℚ) - t / s)).toNat with
                | some r => r.avg_map
                | none => none) := by
      rw [List.get?_map, List.get?_range hi, Option.map_some']
    constructor
    · intro hki
      rw [hget]
      rw [hk, hcast] at *
      rw [if_neg (by omega)]
      have htn : ((i : ℤ) - (k : ℤ)).toNat = i - k := by omega
      rw [htn]
      cases df.get? (i - k) <;> rfl
    · intro hik
      rw [hget]
      rw [hk, hcast] at *
      rw [if_pos (by omega)]

/-- C2 (witness): a table with 5-minute spacing (timestamps 0 s, 300 s,
600 s) and `lookback_minutes = 10`: `n_skips = 2`, row 2 receives row 0's
`avg_map` (80), row 1 is missing, and the column is named `lb_10_map`. -/
theorem C2_lookback_witness :
    ∃ lb, create_lookback [⟨0, some 80⟩, ⟨300, some 70⟩, ⟨600, some 60⟩] 10 =
        .ok ("lb_10_map", lb) ∧
      lb.get? 2 = some (some 80) ∧ lb.get? 1 = some none := by
  obtain ⟨lb, hok, hlen, _, hint⟩ :=
    C2_lookback [⟨0, some 80⟩, ⟨300, some 70⟩, ⟨600, some 60⟩] 10 5
      ⟨0, some 80⟩ ⟨300, some 70⟩ rfl rfl (by norm_num) (by norm_num) (by norm_num)
  have h2 := (hint 2 (by norm_num) 2 (by simp)).1 (by norm_num)
  have h1 := (hint 2 (by norm_num) 1 (by simp)).2 (by norm_num)
  refine ⟨lb, ?_, by simpa using h2, h1⟩
  have hname : ("lb_" ++ toString (10 : ℚ) ++ "_map") = "lb_10_map" := by decide!
  rw [hname] at hok
  exact hok

/-- C9: with at least two rows and a positive spacing `s` read off the
first two timestamps, `create_lookback` raises `ValueError` exactly when
`lookback_minutes = t` is strictly below `s`, and completes normally
(returning the extended table) when `t ≥ s`. -/
theorem C9_lookback_guard (df : List LBRow) (t s : ℚ) (row0 row1 : LBRow)
    (h0 : df.get? 0 = some row0) (h1 : df.get? 1 = some row1)
    (hs : ((row1.start_window_time - row0.start_window_time : ℕ) : ℚ) / 60 = s)
    (hpos : 0 < s) :
    (t < s → create_lookback df t = .error "ValueError") ∧
    (s ≤ t → ∃ lb, create_lookback df t = .ok ("lb_" ++ toString t ++ "_map", lb)) := by
  constructor
  · intro hts
    simp only [create_lookback, h0, h1]
    rw [hs, if_pos hts]
  · intro hts
    exact ⟨_, create_lookback_ok df t s row0 row1 h0 h1 hs hpos hts⟩

/-- C9 (witness): on the 5-minute-spacing table, `lookback_minutes = 3`
raises `ValueError` and `lookback_minutes = 10` completes. -/
theorem C9_lookback_guard_witness :
    create_lookback [⟨0, some 80⟩, ⟨300, some 70⟩, ⟨600, some 60⟩] 3 = .error "ValueError" ∧
    ∃ lb, create_lookback [⟨0, some 80⟩, ⟨300, some 70⟩, ⟨600, some 60⟩] 10 =
      .ok ("lb_10_map", lb) := by
  constructor
  · exact (C9_lookback_guard [⟨0, some 80⟩, ⟨300, some 70⟩, ⟨600, some 60⟩] 3 5
      ⟨0, some 80⟩ ⟨300, some 70⟩ rfl rfl (by norm_num) (by norm_num)).1 (by norm_num)
  · obtain ⟨lb, hok⟩ := (C9_lookback_guard [⟨0, some 80⟩, ⟨300, some 70⟩, ⟨600, some 60⟩] 10 5
      ⟨0, some 80⟩ ⟨300, some 70⟩ rfl rfl (by norm_num) (by norm_num)).2 (by norm_num)
    have hname : ("lb_" ++ toString (10 : ℚ) ++ "_map") = "lb_10_map" := by decide!
    rw [hname] at hok
    exact ⟨lb, hok⟩

/-! ### Structure of the avg_bp output -/

theorem label_rows_length (base : List WRow) : (label_rows base).length = base.length := by
  simp [label_rows, List.length_zip]

theorem label_rows_get? (base : List WRow) (i : ℕ) :
    (label_rows base).get? i = (base.get? i).map fun r =>
      { toWRow := r, current_hypotensive := cur_hypo r.avg_map,
        hypotensive_in_15 := (base.map fun r' => cur_hypo r'.avg_map).get? (i + 15) } := by
  rw [label_rows, List.get?_map]
  cases h : base.get? i with
  | none =>
      have hlen : base.length ≤ i := List.get?_eq_none.mp h
      rw [List.get?_eq_none.mpr (by simp [List.length_zip]; omega)]
      rfl
  | some r =>
      have hi : i < base.length := by
        by_contra hlt
        push_neg at hlt
        rw [List.get?_eq_none.mpr hlt] at h
        exact Option.noConfusion h
      rw [zip_get? (List.range base.length) base i i r (List.get?_range hi) h]
      rfl

theorem avg_bp_eq_some (wave firstIdx : ℕ) (rows : WaveRows)
    (time_chunk time_window : ℕ) (out : List WRowL) :
    avg_bp wave firstIdx rows time_chunk time_window = some out ↔
      ((pyRange (firstIdx + time_chunk * 1000 / 8) (firstIdx + rows.length - 1)
          (time_window * 1000 / 8)).filterMap
        (mkWindowRow wave firstIdx rows (time_chunk * 1000 / 8)) ≠ [] ∧
       out = label_rows ((pyRange (firstIdx + time_chunk * 1000 / 8)
          (firstIdx + rows.length - 1) (time_window * 1000 / 8)).filterMap
        (mkWindowRow wave firstIdx rows (time_chunk * 1000 / 8)))) := by
  simp only [avg_bp]
  by_cases hb : ((pyRange (firstIdx + time_chunk * 1000 / 8) (firstIdx + rows.length - 1)
      (time_window * 1000 / 8)).filterMap
      (mkWindowRow wave firstIdx rows (time_chunk * 1000 / 8))) = []
  · simp [hb]
  · simp only [hb, List.isEmpty_iff, if_neg hb, ne_eq, not_false_eq_true, true_and]
    exact ⟨fun h => (Option.some_injective _ h).symm, fun h => by rw [h]; simp⟩

theorem mkWindowRow_eq_some (wave firstIdx : ℕ) (rows : WaveRows) (tc w : ℕ) (r : WRow) :
    mkWindowRow wave firstIdx rows tc w = some r ↔
      ∃ t0 t1, tsAt firstIdx rows (w - tc) = some t0 ∧ tsAt firstIdx rows w = some t1 ∧
        r = { wave := wave, start_window := w - tc, end_window := w,
              start_window_time := t0, end_window_time := t1,
              avg_sys := npMean ((get_sys_bp (w - tc) (subValues firstIdx rows tc w)).map Prod.snd),
              avg_dias := npMean ((get_dias_bp (w - tc) (subValues firstIdx rows tc w)).map Prod.snd),
              avg_map := np_map
                (npMean ((get_sys_bp (w - tc) (subValues firstIdx rows tc w)).map Prod.snd))
                (npMean ((get_dias_bp (w - tc) (subValues firstIdx rows tc w)).map Prod.snd)),
              all_values := subValues firstIdx rows tc w } := by
  simp only [mkWindowRow]
  cases h0 : tsAt firstIdx rows (w - tc) <;> cases h1 : tsAt firstIdx rows w <;>
    simp [h0, h1, eq_comm]

theorem mem_pyRange (a b s w : ℕ) (h : w ∈ pyRange a b s) : a ≤ w ∧ w < b := by
  unfold pyRange at h
  by_cases hs : s = 0
  · simp [hs] at h
  · rw [if_neg hs, List.mem_range'] at h
    obtain ⟨i, hi, hw⟩ := h
    have hub : s * ((b - a + s - 1) / s) ≤ b - a + s - 1 := by
      rw [Nat.mul_comm]
      exact Nat.div_mul_le_self (b - a + s - 1) s
    have hstep : s * (i + 1) ≤ s * ((b - a + s - 1) / s) := Nat.mul_le_mul_left s hi
    have hsum : s * (i + 1) = s * i + s := by ring
    have key : s * i + s ≤ b - a + s - 1 := by rw [← hsum]; exact le_trans hstep hub
    generalize hm : s * i = m at hw key
    omega

theorem get_sys_bp_short (startIdx : ℕ) (vals : List ℚ)
    (h : (find_peaks vals).length < 2) : get_sys_bp startIdx vals = [] := by
  apply pair_peaks_short
  simpa using h

theorem get_dias_bp_short (startIdx : ℕ) (vals : List ℚ)
    (h : (find_peaks (vals.map recip)).length < 2) : get_dias_bp startIdx vals = [] := by
  apply pair_peaks_short
  simpa using h

/-! ### C4: the hypotensive_in_15 label -/

/-- C4: in every summary table returned by `avg_bp`, row `i`'s
`hypotensive_in_15` equals row `i + 15`'s `current_hypotensive` whenever
row `i + 15` exists, and is missing (never a stale value) when it does
not, i.e. for the final 15 rows. -/
theorem C4_hypotensive_in_15 (wave firstIdx time_chunk time_window : ℕ)
    (rows : WaveRows) (out : List WRowL)
    (h : avg_bp wave firstIdx rows time_chunk time_window = some out) :
    (∀ (i : ℕ) (r s : WRowL), out.get? i = some r → out.get? (i + 15) = some s →
      r.hypotensive_in_15 = some s.current_hypotensive) ∧
    (∀ (i : ℕ) (r : WRowL), out.get? i = some r → out.length ≤ i + 15 →
      r.hypotensive_in_15 = none) := by
  obtain ⟨-, hout⟩ := (avg_bp_eq_some wave firstIdx rows time_chunk time_window out).mp h
  generalize hbase : (pyRange (firstIdx + time_chunk * 1000 / 8) (firstIdx + rows.length - 1)
      (time_window * 1000 / 8)).filterMap
      (mkWindowRow wave firstIdx rows (time_chunk * 1000 / 8)) = base at hout
  subst hout
  constructor
  · intro i r s hr hs
    rw [label_rows_get?] at hr hs
    cases hb1 : base.get? i with
    | none => rw [hb1] at hr; exact Option.noConfusion hr
    | some br =>
        cases hb2 : base.get? (i + 15) with
        | none => rw [hb2] at hs; exact Option.noConfusion hs
        | some bs =>
            rw [hb1, Option.map_some'] at hr
            rw [hb2, Option.map_some'] at hs
            injection hr with hr; injection hs with hs
            subst hr; subst hs
            simp only [List.get?_map, hb2, Option.map_some']
  · intro i r hr hlen
    rw [label_rows_length] at hlen
    rw [label_rows_get?] at hr
    cases hb1 : base.get? i with
    | none => rw [hb1] at hr; exact Option.noConfusion hr
    | some br =>
        rw [hb1, Option.map_some'] at hr
        injection hr with hr
        subst hr
        simp only [List.get?_map]
        rw [List.get?_eq_none.mpr hlen]
        rfl

/-- C4 (witness): a two-sample run producing a single summary row, whose
label is therefore missing. -/
theorem C4_hypotensive_in_15_witness :
    (⟨⟨0, 0, 0, 0, 0, none, none, none, [1]⟩, 0, none⟩ : WRowL).hypotensive_in_15 = none := by
  exact (C4_hypotensive_in_15 0 0 0 60 [(1, some 0), (2, some 1)]
      [⟨⟨0, 0, 0, 0, 0, none, none, none, [1]⟩, 0, none⟩] (by decide!)).2 0
      ⟨⟨0, 0, 0, 0, 0, none, none, none, [1]⟩, 0, none⟩ (by decide!) (by simp)

/-! ### C7: current_hypotensive and avg_map derivation -/

/-- C7: every row emitted by `avg_bp` has `current_hypotensive = 1` when
`avg_map ≤ 65` and `0` otherwise (a missing `avg_map` compares false, so
gives `0`), and `avg_map` is exactly `(avg_sys + 2 * avg_dias) / 3` over
the window's averaged peak magnitudes (missing whenever either average
is), never an independent recomputation from per-peak MAP values. -/
theorem C7_hypotension_flag (wave firstIdx time_chunk time_window : ℕ)
    (rows : WaveRows) (out : List WRowL)
    (h : avg_bp wave firstIdx rows time_chunk time_window = some out) :
    ∀ r : WRowL, r ∈ out →
      (∀ m : ℚ, r.avg_map = some m → r.current_hypotensive = if m ≤ 65 then 1 else 0) ∧
      (r.avg_map = none → r.current_hypotensive = 0) ∧
      (∀ sv dv : ℚ, r.avg_sys = some sv → r.avg_dias = some dv →
        r.avg_map = some ((sv + 2 * dv) / 3)) ∧
      ((r.avg_sys = none ∨ r.avg_dias = none) → r.avg_map = none) := by
  obtain ⟨-, hout⟩ := (avg_bp_eq_some wave firstIdx rows time_chunk time_window out).mp h
  generalize hbase : (pyRange (firstIdx + time_chunk * 1000 / 8) (firstIdx + rows.length - 1)
      (time_window * 1000 / 8)).filterMap
      (mkWindowRow wave firstIdx rows (time_chunk * 1000 / 8)) = base at hout
  subst hout
  intro r hr
  obtain ⟨i, hi⟩ := List.mem_iff_get?.mp hr
  rw [label_rows_get?] at hi
  cases hb : base.get? i with
  | none => rw [hb] at hi; exact Option.noConfusion hi
  | some br =>
      rw [hb, Option.map_some'] at hi
      injection hi with hi
      subst hi
      have hbr_mem : br ∈ base := List.get?_mem hb
      rw [← hbase] at hbr_mem
      obtain ⟨w, _, hmk⟩ := List.mem_filterMap.mp hbr_mem
      obtain ⟨t0, t1, -, -, hbr⟩ :=
        (mkWindowRow_eq_some wave firstIdx rows (time_chunk * 1000 / 8) w br).mp hmk
      have hmap : br.avg_map = np_map br.avg_sys br.avg_dias := by rw [hbr]
      refine ⟨?_, ?_, ?_, ?_⟩
      · intro m hm
        show cur_hypo br.avg_map = if m ≤ 65 then 1 else 0
        rw [show br.avg_map = some m from hm]
        rfl
      · intro hm
        show cur_hypo br.avg_map = 0
        rw [show br.avg_map = none from hm]
        rfl
      · intro sv dv hs hd
        show br.avg_map = some ((sv + 2 * dv) / 3)
        rw [hmap, show br.avg_sys = some sv from hs, show br.avg_dias = some dv from hd]
        rfl
      · intro hnone
        show br.avg_map = none
        rw [hmap]
        rcases hnone with hs | hd
        · rw [show br.avg_sys = none from hs]
          cases br.avg_dias <;> rfl
        · rw [show br.avg_dias = none from hd]
          cases br.avg_sys <;> rfl

/-- C7 (witness): the alternating waveform gives `avg_sys = 2`,
`avg_dias = 1`, `avg_map = 4/3 ≤ 65`, so the row is flagged hypotensive. -/
theorem C7_hypotension_flag_witness : c7row.current_hypotensive = 1 := by
  have h := (C7_hypotension_flag 0 0 1 60 c7rows [c7row] (by decide!)) c7row
    (List.mem_singleton.mpr rfl)
  have hcur := h.1 (4 / 3) (by decide!)
  rw [hcur]
  norm_num

/-! ### C6: window geometry -/

/-- C6: in every `avg_bp` run with positive chunk and step durations,
durations are converted to samples as `seconds * 1000 / 8`; every emitted
row comes from a window end position `w` in
`range(first_index + chunk_samples, last_index, step_samples)`, covers the
inclusive sample slice `[w - chunk_samples, w]`, and satisfies
`start_window < end_window` with
`end_window - start_window = chunk_samples`. -/
theorem C6_window_geometry (wave firstIdx time_chunk time_window : ℕ)
    (rows : WaveRows) (out : List WRowL)
    (hc : 0 < time_chunk) (hw : 0 < time_window)
    (h : avg_bp wave firstIdx rows time_chunk time_window = some out) :
    ∀ r : WRowL, r ∈ out →
      ∃ w, w ∈ pyRange (firstIdx + time_chunk * 1000 / 8) (firstIdx + rows.length - 1)
          (time_window * 1000 / 8) ∧
        firstIdx + time_chunk * 1000 / 8 ≤ w ∧ w < firstIdx + rows.length - 1 ∧
        r.start_window = w - time_chunk * 1000 / 8 ∧
        r.end_window = w ∧
        r.all_values = subValues firstIdx rows (time_chunk * 1000 / 8) w ∧
        r.start_window < r.end_window ∧
        r.end_window - r.start_window = time_chunk * 1000 / 8 := by
  obtain ⟨-, hout⟩ := (avg_bp_eq_some wave firstIdx rows time_chunk time_window out).mp h
  generalize hbase : (pyRange (firstIdx + time_chunk * 1000 / 8) (firstIdx + rows.length - 1)
      (time_window * 1000 / 8)).filterMap
      (mkWindowRow wave firstIdx rows (time_chunk * 1000 / 8)) = base at hout
  subst hout
  intro r hr
  obtain ⟨i, hi⟩ := List.mem_iff_get?.mp hr
  rw [label_rows_get?] at hi
  cases hb : base.get? i with
  | none => rw [hb] at hi; exact Option.noConfusion hi
  | some br =>
      rw [hb, Option.map_some'] at hi
      injection hi with hi
      subst hi
      have hbr_mem : br ∈ base := List.get?_mem hb
      rw [← hbase] at hbr_mem
      obtain ⟨w, hwmem, hmk⟩ := List.mem_filterMap.mp hbr_mem
      obtain ⟨t0, t1, -, -, hbr⟩ :=
        (mkWindowRow_eq_some wave firstIdx rows (time_chunk * 1000 / 8) w br).mp hmk
      obtain ⟨hlo, hhi⟩ := mem_pyRange _ _ _ _ hwmem
      have htc : 125 ≤ time_chunk * 1000 / 8 := by
        have h1000 : 1000 ≤ time_chunk * 1000 := by
          have := Nat.mul_le_mul_right 1000 hc
          simpa using this
        calc 125 = 1000 / 8 := by norm_num
        _ ≤ time_chunk * 1000 / 8 := Nat.div_le_div_right h1000
      have hsw : br.start_window = w - time_chunk * 1000 / 8 := by rw [hbr]
      have hew : br.end_window = w := by rw [hbr]
      have hav : br.all_values = subValues firstIdx rows (time_chunk * 1000 / 8) w := by rw [hbr]
      refine ⟨w, hwmem, hlo, hhi, ?_, ?_, ?_, ?_, ?_⟩
      · exact hsw
      · exact hew
      · exact hav
      · show br.start_window < br.end_window
        rw [hsw, hew]; omega
      · show br.end_window - br.start_window = time_chunk * 1000 / 8
        rw [hsw, hew]; omega

/-- C6 (witness): the constant waveform run: its one row has
`start_window = 0 < 125 = end_window` and width `125 = 1 * 1000 / 8`
samples. -/
theorem C6_window_geometry_witness :
    c6row.start_window < c6row.end_window ∧
    c6row.end_window - c6row.start_window = 1 * 1000 / 8 := by
  obtain ⟨w, -, -, -, -, -, -, hlt, hdiff⟩ :=
    C6_window_geometry 0 0 1 60 c6rows [c6row] (by norm_num) (by norm_num) (by decide!)
      c6row (List.mem_singleton.mpr rfl)
  exact ⟨hlt, hdiff⟩

/-! ### C10: windows with too few peak candidates -/

/-- C10 (counterexample): the claim asserts that whenever a window has
fewer than two systolic or fewer than two diastolic candidates, all of
`avg_sys`, `avg_dias`, `avg_map` are missing.  On `c10rows` the single
window has only one diastolic candidate (so fewer than two), yet the
emitted row carries `avg_sys = 200`, not a missing value. -/
theorem C10_sparse_counterexample :
    avg_bp 0 0 c10rows 1 60 = some [c10row] ∧
    (find_peaks ((subValues 0 c10rows 125 125).map recip)).length < 2 ∧
    c10row.avg_sys ≠ none :=
  ⟨by decide!, by decide!, by decide!⟩

/-- C10 (amended): a window whose boundary timestamps resolve is always
emitted, never skipped or raised on, however few candidates it has; a
side with fewer than two candidates has a missing average; and whenever
either average is missing, `avg_map` is missing and the row's
`current_hypotensive` is 0 (missing compares false against 65). -/
theorem C10_sparse_window (wave firstIdx time_chunk time_window : ℕ) (rows : WaveRows)
    (w : ℕ) (t0 t1 : ℚ)
    (hw : w ∈ pyRange (firstIdx + time_chunk * 1000 / 8) (firstIdx + rows.length - 1)
        (time_window * 1000 / 8))
    (h0 : tsAt firstIdx rows (w - time_chunk * 1000 / 8) = some t0)
    (h1 : tsAt firstIdx rows w = some t1) :
    ∃ out r, avg_bp wave firstIdx rows time_chunk time_window = some out ∧ r ∈ out ∧
      r.start_window = w - time_chunk * 1000 / 8 ∧ r.end_window = w ∧
      ((find_peaks (subValues firstIdx rows (time_chunk * 1000 / 8) w)).length < 2 →
        r.avg_sys = none) ∧
      ((find_peaks ((subValues firstIdx rows (time_chunk * 1000 / 8) w).map recip)).length < 2 →
        r.avg_dias = none) ∧
      ((r.avg_sys = none ∨ r.avg_dias = none) →
        r.avg_map = none ∧ r.current_hypotensive = 0) := by
  obtain ⟨BR, hmk⟩ : ∃ BR, mkWindowRow wave firstIdx rows (time_chunk * 1000 / 8) w
      = some BR := by
    simp only [mkWindowRow, h0, h1]
    exact ⟨_, rfl⟩
  obtain ⟨t0', t1', -, -, hbr⟩ :=
    (mkWindowRow_eq_some wave firstIdx rows (time_chunk * 1000 / 8) w BR).mp hmk
  have hsw : BR.start_window = w - time_chunk * 1000 / 8 := by rw [hbr]
  have hew : BR.end_window = w := by rw [hbr]
  have hsys_eq : BR.avg_sys = npMean ((get_sys_bp (w - time_chunk * 1000 / 8)
      (subValues firstIdx rows (time_chunk * 1000 / 8) w)).map Prod.snd) := by rw [hbr]
  have hdias_eq : BR.avg_dias = npMean ((get_dias_bp (w - time_chunk * 1000 / 8)
      (subValues firstIdx rows (time_chunk * 1000 / 8) w)).map Prod.snd) := by rw [hbr]
  have hmap_eq : BR.avg_map = np_map BR.avg_sys BR.avg_dias := by rw [hbr]
  have hbr_mem : BR ∈ (pyRange (firstIdx + time_chunk * 1000 / 8) (firstIdx + rows.length - 1)
      (time_window * 1000 / 8)).filterMap (mkWindowRow wave firstIdx rows (time_chunk * 1000 / 8)) :=
    List.mem_filterMap.mpr ⟨w, hw, hmk⟩
  have havg : avg_bp wave firstIdx rows time_chunk time_window =
      some (label_rows ((pyRange (firstIdx + time_chunk * 1000 / 8) (firstIdx + rows.length - 1)
        (time_window * 1000 / 8)).filterMap (mkWindowRow wave firstIdx rows
        (time_chunk * 1000 / 8)))) :=
    (avg_bp_eq_some wave firstIdx rows time_chunk time_window _).mpr
      ⟨List.ne_nil_of_mem hbr_mem, rfl⟩
  generalize hbase : (pyRange (firstIdx + time_chunk * 1000 / 8) (firstIdx + rows.length - 1)
      (time_window * 1000 / 8)).filterMap (mkWindowRow wave firstIdx rows (time_chunk * 1000 / 8))
      = base at havg hbr_mem
  obtain ⟨i, hi⟩ := List.mem_iff_get?.mp hbr_mem
  have hlab : (label_rows base).get? i = some ⟨BR, cur_hypo BR.avg_map,
      (base.map fun r' => cur_hypo r'.avg_map).get? (i + 15)⟩ := by
    rw [label_rows_get?, hi]
    rfl
  refine ⟨label_rows base, _, havg, List.get?_mem hlab, ?_, ?_, ?_, ?_, ?_⟩
  · exact hsw
  · exact hew
  · intro hshort
    show BR.avg_sys = none
    rw [hsys_eq, get_sys_bp_short _ _ hshort]
    rfl
  · intro hshort
    show BR.avg_dias = none
    rw [hdias_eq, get_dias_bp_short _ _ hshort]
    rfl
  · intro hnone
    have hmapnone : BR.avg_map = none := by
      rw [hmap_eq]
      rcases hnone with hs | hd
      · rw [show BR.avg_sys = none from hs]
        cases BR.avg_dias <;> rfl
      · rw [show BR.avg_dias = none from hd]
        cases BR.avg_sys <;> rfl
    constructor
    · exact hmapnone
    · show cur_hypo BR.avg_map = 0
      rw [hmapnone]
      rfl

/-- C10 (witness): a two-sample run: the single one-sample window has zero
candidates of both kinds, yet a row is emitted, with all three averages
missing and `current_hypotensive = 0`. -/
theorem C10_sparse_window_witness :
    ∃ out r, avg_bp 0 0 [(7, some 0), (8, some 1)] 0 60 = some out ∧ r ∈ out ∧
      r.avg_sys = none ∧ r.avg_dias = none ∧ r.avg_map = none ∧
      r.current_hypotensive = 0 := by
  obtain ⟨out, r, hout, hmem, -, -, hsys, hdias, hmap⟩ :=
    C10_sparse_window 0 0 0 60 [(7, some 0), (8, some 1)] 0 0 0
      (by decide) (by decide) (by decide)
  have h1 := hsys (by decide)
  have h2 := hdias (by decide!)
  have h3 := hmap (Or.inl h1)
  exact ⟨out, r, hout, hmem, h1, h2, h3.1, h3.2⟩

/-! ### C8: clean_bp_summary -/

theorem opt_threshold_true (o : Option ℚ) (c : ℚ) :
    (match o with | some v => decide (c ≤ v) | none => false) = true ↔
      ∃ v, o = some v ∧ c ≤ v := by
  cases o <;> simp

/-- C8: `clean_bp_summary` keeps every row, pairing it with an
`include_in_model` flag that is 1 exactly when `avg_sys ≥ 30`,
`avg_dias ≥ 10` and `hypotensive_in_15` is not missing (a missing average
fails its comparison), and 0 otherwise. -/
theorem C8_include_in_model (df : List CleanRow) :
    (clean_bp_summary df).length = df.length ∧
    ∀ (i : ℕ) (r : CleanRow), df.get? i = some r →
      ∃ flag : ℕ, (clean_bp_summary df).get? i = some (r, flag) ∧
        (flag = 1 ∨ flag = 0) ∧
        (flag = 1 ↔ (∃ v, r.avg_sys = some v ∧ 30 ≤ v) ∧
                    (∃ v, r.avg_dias = some v ∧ 10 ≤ v) ∧
                    r.hypotensive_in_15 ≠ none) := by
  refine ⟨by simp [clean_bp_summary], ?_⟩
  intro i r hr
  rw [clean_bp_summary, List.get?_map, hr, Option.map_some']
  refine ⟨_, rfl, ?_, ?_⟩
  · cases ((match r.avg_sys with | some v => decide (30 ≤ v) | none => false) &&
      (match r.avg_dias with | some v => decide (10 ≤ v) | none => false) &&
      r.hypotensive_in_15.isSome) <;> simp
  · have hif : ∀ b : Bool, (if b then (1 : ℕ) else 0) = 1 ↔ b = true := by
      intro b; cases b <;> simp
    rw [hif, Bool.and_eq_true, Bool.and_eq_true, opt_threshold_true, opt_threshold_true,
      Option.isSome_iff_ne_none]
    tauto

/-- C8 (witness): a row with `avg_sys = 29.9` (and healthy other fields)
receives flag 0; a row with `avg_sys = 30`, `avg_dias = 10`,
`hypotensive_in_15 = 1` receives flag 1. -/
theorem C8_include_in_model_witness :
    (clean_bp_summary [⟨some (299 / 10), some 50, some 1⟩, ⟨some 30, some 10, some 1⟩]).get? 0 =
      some (⟨some (299 / 10), some 50, some 1⟩, 0) ∧
    (clean_bp_summary [⟨some (299 / 10), some 50, some 1⟩, ⟨some 30, some 10, some 1⟩]).get? 1 =
      some (⟨some 30, some 10, some 1⟩, 1) := by
  obtain ⟨-, hrow⟩ :=
    C8_include_in_model [⟨some (299 / 10), some 50, some 1⟩, ⟨some 30, some 10, some 1⟩]
  obtain ⟨f0, hget0, hor0, hiff0⟩ := hrow 0 ⟨some (299 / 10), some 50, some 1⟩ rfl
  obtain ⟨f1, hget1, hor1, hiff1⟩ := hrow 1 ⟨some 30, some 10, some 1⟩ rfl
  have hf0 : f0 = 0 := by
    rcases hor0 with h1 | h0
    · exfalso
      obtain ⟨⟨v, hv, hge⟩, -, -⟩ := hiff0.mp h1
      injection hv with hv
      subst hv
      norm_num at hge
    · exact h0
  have hf1 : f1 = 1 :=
    hiff1.mpr ⟨⟨30, rfl, le_refl 30⟩, ⟨10, rfl, le_refl 10⟩, by simp⟩
  rw [hf0] at hget0
  rw [hf1] at hget1
  exact ⟨hget0, hget1⟩

end BPFeatures
